import Mathlib

/-!
Verification of the fleet lifecycle controller in `app/main.py` of
StuxGames/GameServerManager.

The development shallowly embeds the controller core: the semantic version
type (backed in the source by the `semantic_version` library), the version
catalog refresh (`get_latest_image_tags`), registry reconciliation
(`remove_stopped_containers`), image provisioning (`check_images_pulled`),
the container-creation retry loop (`create_server`), the request handler
(`request_game`) and the startup hook (`lifespan`).

External collaborators (the Docker runtime, the Docker Hub registry, the
OS port allocator) are modelled as oracles supplied in an `Env` record, so
every embedded operation is a pure function of the oracle and the mutable
module-level state (`containers`, `latest_tags`, `min_supported_tag`).
Exceptions are modelled with `Except`; an `Except.error` result means the
Python code raises at that point and the corresponding global assignments
never happen.
-/

set_option maxRecDepth 4000

/-! ## Versions

Models `semantic_version.Version`: strict `major.minor.patch` with an
optional dash-separated prerelease whose dot-separated identifiers are
numeric (no leading zero) or alphanumeric.  Build metadata (a `+` suffix,
ignored by semver precedence and impossible in Docker registry tag names,
which cannot contain `+`) is omitted from the model: strings containing
`+` are rejected by `parseVersion`. -/

/-- A prerelease identifier: numeric identifiers compare as naturals and
sort before alphanumeric identifiers, which compare lexicographically. -/
abbrev PreId := Nat ⊕ String

structure Version where
  major : Nat
  minor : Nat
  patch : Nat
  prerelease : List PreId
deriving DecidableEq, Repr

/-- Key for semver precedence: compare the numeric triple lexicographically,
then the prerelease; a version without prerelease sorts after every
prerelease of the same triple, hence the `⊤` of `WithTop`. -/
def Version.key (v : Version) :
    Nat ×ₗ Nat ×ₗ Nat ×ₗ WithTop (List (Nat ⊕ₗ String)) :=
  toLex (v.major, toLex (v.minor, toLex (v.patch,
    match v.prerelease with
    | [] => (⊤ : WithTop (List (Nat ⊕ₗ String)))
    | l => ((l.map toLex : List (Nat ⊕ₗ String)) : WithTop (List (Nat ⊕ₗ String))))))

theorem Version.key_injective : Function.Injective Version.key := by
  rintro ⟨ma, mia, pa, pra⟩ ⟨mb, mib, pb, prb⟩ h
  unfold Version.key at h
  have h1 := toLex.injective h
  rw [Prod.mk.injEq] at h1
  obtain ⟨e1, h2⟩ := h1
  have h2 := toLex.injective h2
  rw [Prod.mk.injEq] at h2
  obtain ⟨e2, h3⟩ := h2
  have h3 := toLex.injective h3
  rw [Prod.mk.injEq] at h3
  obtain ⟨e3, h4⟩ := h3
  simp only at e1 e2 e3 h4
  subst e1; subst e2; subst e3
  match pra, prb, h4 with
  | [], [], _ => rfl
  | [], x :: xs, h4 => exact absurd h4 WithTop.top_ne_coe
  | x :: xs, [], h4 => exact absurd h4 WithTop.coe_ne_top
  | x :: xs, y :: ys, h4 =>
    rw [WithTop.coe_inj] at h4
    have := List.map_injective_iff.mpr (toLex.injective (α := Nat ⊕ String)) h4
    simp_all

instance : LinearOrder Version := LinearOrder.lift' Version.key Version.key_injective

theorem Version.lt_iff_key (a b : Version) : a < b ↔ a.key < b.key := Iff.rfl

theorem Version.le_iff_key (a b : Version) : a ≤ b ↔ a.key ≤ b.key := Iff.rfl

/-! ### Parsing

Models the strict parsing done by the `semver.Version` constructor, which
raises `ValueError` (modelled as `none`) on malformed input. -/

/-- Split a character list at every occurrence of the separator. -/
def splitOnChar (sep : Char) : List Char → List (List Char)
  | [] => [[]]
  | c :: cs =>
    let rest := splitOnChar sep cs
    if c == sep then [] :: rest
    else
      match rest with
      | [] => [[c]]
      | r :: rs => (c :: r) :: rs

/-- Split at the first dash: the version core, and the prerelease part when
a dash is present. -/
def splitCoreDash : List Char → List Char × Option (List Char)
  | [] => ([], none)
  | c :: cs =>
    if c == ('-') then ([], some cs)
    else
      let (a, b) := splitCoreDash cs
      (c :: a, b)

/-- A numeric component: nonempty, all digits, no leading zero unless the
component is exactly the single digit zero. -/
def digitsToNat : List Char → Option Nat
  | [] => none
  | cs =>
    if cs.all Char.isDigit then
      if cs.length > 1 && cs.headD ('0') == ('0') then none
      else some (cs.foldl (fun n c => 10 * n + (c.toNat - 48)) 0)
    else none

/-- Characters allowed in a prerelease identifier. -/
def idChar (c : Char) : Bool := c.isDigit || c.isAlpha || c == ('-')

/-- Parse one prerelease identifier: digit-only identifiers become numeric
(leading zeros rejected), others alphanumeric. -/
def parsePreId (cs : List Char) : Option PreId :=
  match cs with
  | [] => none
  | _ =>
    if cs.all Char.isDigit then (digitsToNat cs).map Sum.inl
    else if cs.all idChar then some (Sum.inr (String.mk cs))
    else none

/-- Parse the dotted numeric core. -/
def parseCore (cs : List Char) : Option (Nat × Nat × Nat) :=
  match splitOnChar ('.') cs with
  | [a, b, c] => do
    let ma ← digitsToNat a
    let mb ← digitsToNat b
    let mc ← digitsToNat c
    pure (ma, mb, mc)
  | _ => none

/-- Models the `semver.Version` constructor: `some` on a valid strict
semantic version, `none` where the Python constructor raises `ValueError`.
Build metadata is not modelled (see the section comment). -/
def parseVersion (s : String) : Option Version :=
  if s.data.any (fun c => c == ('+')) then none
  else
    let (core, pre) := splitCoreDash s.data
    match parseCore core with
    | none => none
    | some (a, b, c) =>
      match pre with
      | none => some ⟨a, b, c, []⟩
      | some p =>
        match (splitOnChar ('.') p).mapM parsePreId with
        | none => none
        | some ids => some ⟨a, b, c, ids⟩

/-! ## Configuration constants (module constants in `app/main.py`) -/

def MAX_CONTAINER_RETRIES : Nat := 10
def MAX_RUNNING_SERVERS : Nat := 20
def MAX_TAGS : Nat := 5

/-! ## Observable effects

Calls into the external capabilities, recorded in order.  `pullCall` is an
invocation of the runtime's pull; `fetch` is the effectful download the
runtime performs when the image is not already present. -/

inductive Event where
  | reconcile
  | refresh
  | pullCall (v : Version)
  | fetch (v : Version)
  | alloc (p : Nat)
  | runAttempt (i : Nat)
  | register (cid : String)
deriving DecidableEq, Repr

/-! ## Version catalog: `get_latest_image_tags` -/

/-- The module-level catalog globals `latest_tags` and `min_supported_tag`. -/
structure CatalogState where
  latest_tags : List Version
  min_supported_tag : Option Version
deriving DecidableEq, Repr

/-- Outcome of the `requests.get` call against the registry: either the call
(or decoding its body) raised, or it produced a response with a status code
and the list of tag names in `data["results"]`. -/
inductive RegistryResult where
  | raised
  | resp (status : Nat) (names : List String)
deriving DecidableEq, Repr

/-- The running-minimum update in the tag loop:
`if min_tag == None or min_tag > version: min_tag = version`. -/
def lowerMin (min_tag : Option Version) (version : Version) : Option Version :=
  match min_tag with
  | none => some version
  | some m => if m > version then some version else some m

/-- One iteration of the tag loop in `get_latest_image_tags`: parse the tag
name, skip it on `ValueError`, otherwise lower the running minimum and
append to the accumulated tag list. -/
def scanStep (acc : List Version × Option Version) (name : String) :
    List Version × Option Version :=
  match parseVersion name with
  | none => acc
  | some version => (acc.1 ++ [version], lowerMin acc.2 version)

/-- The whole tag loop of `get_latest_image_tags`. -/
def scanTags (names : List String) : List Version × Option Version :=
  names.foldl scanStep ([], none)

/-- Models `get_latest_image_tags`.  An `Except.error` means an exception
(e.g. a `requests` connection error) propagated to the caller, in which
case the global catalog was not assigned.  A non-200 status logs and
returns, leaving the catalog unchanged.  On a 200 response both globals are
replaced from the parsed tag list. -/
def get_latest_image_tags (reg : RegistryResult) (cat : CatalogState) :
    Except Unit CatalogState :=
  match reg with
  | .raised => .error ()
  | .resp status names =>
    if status ≠ 200 then .ok cat
    else
      let (tags, min_tag) := scanTags names
      .ok ⟨tags, min_tag⟩

/-! ## Fleet registry: `remove_stopped_containers` -/

/-- Outcome of `container.reload()` followed by reading `container.status`:
either a status string, or the reload raised (container deleted). -/
inductive StatusOutcome where
  | status (s : String)
  | raised
deriving DecidableEq, Repr

/-- Models `remove_stopped_containers`: iterate over a snapshot of the
tracked containers; a container whose reload raises, or whose status is not
"running", is popped; the bare `except:` means no exception escapes. -/
def remove_stopped_containers (statusOf : String → StatusOutcome) :
    List String → List String
  | [] => []
  | cid :: rest =>
    match statusOf cid with
    | .status s =>
      if s = ("running") then cid :: remove_stopped_containers statusOf rest
      else remove_stopped_containers statusOf rest
    | .raised => remove_stopped_containers statusOf rest

/-! ## Image provisioning: `check_images_pulled`

The Docker runtime is the external runtime capability: its local image
store is the `present` set, and `pull` is modelled from the capability
interface in the spec — pulling an already-present image tag is a no-op;
pulling an absent one either fetches it (when the registry can serve it,
per the `avail` oracle) or raises a docker `APIError`. -/

structure Runtime where
  present : List Version
deriving DecidableEq, Repr

structure PullResult where
  events : List Event
  rt : Runtime
  raised : Bool
deriving DecidableEq, Repr

/-- One `docker_client.images.pull(repository=image, tag=str(tag))` call. -/
def pullOne (avail : Version → Bool) (rt : Runtime) (v : Version) : PullResult :=
  if v ∈ rt.present then ⟨[.pullCall v], rt, false⟩
  else if avail v then ⟨[.pullCall v, .fetch v], ⟨v :: rt.present⟩, false⟩
  else ⟨[.pullCall v], rt, true⟩

/-- Models `check_images_pulled`: pull every tag in order; the loop body has
no exception handler, so the first raising pull aborts the loop and the
exception propagates (`raised = true`). -/
def check_images_pulled (avail : Version → Bool) (rt : Runtime) :
    List Version → PullResult
  | [] => ⟨[], rt, false⟩
  | v :: vs =>
    let p := pullOne avail rt v
    if p.raised then p
    else
      let r := check_images_pulled avail p.rt vs
      ⟨p.events ++ r.events, r.rt, r.raised⟩

/-! ## Container creation: `create_server` -/

/-- Exceptions raised by `docker_client.containers.run`. -/
inductive DockerExn where
  | apiError
  | imageNotFound
deriving DecidableEq, Repr

/-- Whether an exception is matched by an `except docker.errors.APIError`
clause.  In docker-py, `ImageNotFound` subclasses `NotFound`, which
subclasses `APIError`, so both modelled kinds match. -/
def DockerExn.matchesAPIError : DockerExn → Bool := fun _ => true

/-- Whether an exception is matched by an
`except docker.errors.ImageNotFound` clause. -/
def DockerExn.matchesImageNotFound : DockerExn → Bool
  | .imageNotFound => true
  | .apiError => false

/-- Outcome of one `containers.run` call: a detached container with its
runtime-assigned id, or a raised docker exception. -/
inductive CreateOutcome where
  | success (cid : String)
  | raise (e : DockerExn)
deriving DecidableEq, Repr

/-- How a `create_server` invocation ends when no container was created:
a provisioning pull raised, the final `raise Exception(...)` after the
`for`/`else` exhausted every attempt, or an exception matched by no
`except` clause (unreachable for the modelled docker exceptions). -/
inductive CreateErr where
  | pullRaised
  | launchFailed (attempts : Nat)
  | unhandled (e : DockerExn)
deriving DecidableEq, Repr

/-- Oracles for all external collaborators touched while handling one
request: container statuses for reconciliation, the registry response for
a (single possible) catalog refresh, the `containers.run` outcome and the
allocator's free port for each attempt index, and which image tags the
registry can serve to a pull. -/
structure Env where
  statusOf : String → StatusOutcome
  registry : RegistryResult
  createAt : Nat → CreateOutcome
  portAt : Nat → Nat
  avail : Version → Bool

structure CreateResult where
  events : List Event
  containers : List String
  rt : Runtime
  result : Except CreateErr Nat
deriving Repr

/-- The `for attempt in range(MAX_CONTAINER_RETRIES)` loop of
`create_server`, with `fuel` the remaining iterations.  Each iteration
allocates a fresh port, calls `containers.run`, and on success registers
the container and returns the port.  The `except` clauses are tried in
source order: `APIError` first (log and continue), then `ImageNotFound`
(re-pull and continue) — the second clause is shadowed by the first
because `ImageNotFound` is a subclass of `APIError`. -/
def create_loop (env : Env) (tags : List Version) (containers : List String) :
    Runtime → Nat → Nat → CreateResult
  | rt, _, 0 => ⟨[], containers, rt, .error (.launchFailed MAX_CONTAINER_RETRIES)⟩
  | rt, attempt, fuel + 1 =>
    let port := env.portAt attempt
    let evs0 := [Event.alloc port, Event.runAttempt attempt]
    match env.createAt attempt with
    | .success cid =>
      ⟨evs0 ++ [Event.register cid], containers ++ [cid], rt, .ok port⟩
    | .raise e =>
      if e.matchesAPIError then
        let r := create_loop env tags containers rt (attempt + 1) fuel
        ⟨evs0 ++ r.events, r.containers, r.rt, r.result⟩
      else if e.matchesImageNotFound then
        let p := check_images_pulled env.avail rt tags
        if p.raised then ⟨evs0 ++ p.events, containers, p.rt, .error .pullRaised⟩
        else
          let r := create_loop env tags containers p.rt (attempt + 1) fuel
          ⟨evs0 ++ p.events ++ r.events, r.containers, r.rt, r.result⟩
      else ⟨evs0, containers, rt, .error (.unhandled e)⟩

/-- Models `create_server`: provision every currently supported tag (an
unguarded call — a raising pull propagates out of `create_server`), then
run the bounded retry loop. -/
def create_server (env : Env) (tags : List Version) (containers : List String)
    (rt : Runtime) : CreateResult :=
  let p := check_images_pulled env.avail rt tags
  if p.raised then ⟨p.events, containers, p.rt, .error .pullRaised⟩
  else
    let r := create_loop env tags containers p.rt 0 MAX_CONTAINER_RETRIES
    ⟨p.events ++ r.events, r.containers, r.rt, r.result⟩

/-! ## The request handler: `request_game` -/

/-- The request body of POST /api/manager/request. -/
structure GameRequest where
  name : String
  list : Bool
  version : String
deriving DecidableEq, Repr

/-- How `request_game` rejects a request.  The first four are the
structured `HTTPException`s the handler raises itself; the remaining kinds
are unhandled exceptions that escape the handler (an HTTP 500 at the
transport boundary): the `TypeError` from comparing a `Version` with an
absent (`None`) minimum, an exception from the in-request catalog refresh,
a propagated provisioning pull failure, the post-retry
`raise Exception(...)`, and the unreachable unmatched-exception case. -/
inductive Rejection where
  | invalidVersion
  | capacityExceeded
  | versionTooOld
  | unsupportedVersion
  | minNoneTypeError
  | refreshRaised
  | pullRaised
  | launchFailed (attempts : Nat)
  | unhandled (e : DockerExn)
deriving DecidableEq, Repr

/-- The module-level mutable state: the `containers` dict (its keys), the
catalog globals, and the runtime's local image store. -/
structure World where
  containers : List String
  catalog : CatalogState
  rt : Runtime
deriving DecidableEq, Repr

structure ReqResult where
  events : List Event
  world : World
  result : Except Rejection Nat
deriving Repr

def rejectionOfCreateErr : CreateErr → Rejection
  | .pullRaised => .pullRaised
  | .launchFailed n => .launchFailed n
  | .unhandled e => .unhandled e

/-- The `create_server` call at the end of `request_game`, threading the
registry/runtime state and translating its outcome. -/
def runCreate (env : Env) (w : World) : ReqResult :=
  let r := create_server env w.catalog.latest_tags w.containers w.rt
  ⟨r.events, ⟨r.containers, w.catalog, r.rt⟩,
    match r.result with
    | .ok port => .ok port
    | .error e => .error (rejectionOfCreateErr e)⟩

/-- Models the `request_game` handler end to end: parse the version string
(HTTP 400 on `ValueError`), reconcile then check capacity (HTTP 429),
compare against the minimum (HTTP 426; an absent minimum makes the
comparison itself raise `TypeError`), then check membership in the
supported set with at most one catalog refresh (HTTP 400 if still
unsupported; an exception inside the refresh propagates), and finally
create and register the container. -/
def request_game (env : Env) (w : World) (req : GameRequest) : ReqResult :=
  match parseVersion req.version with
  | none => ⟨[], w, .error .invalidVersion⟩
  | some version =>
    let containers' := remove_stopped_containers env.statusOf w.containers
    let w1 : World := ⟨containers', w.catalog, w.rt⟩
    if MAX_RUNNING_SERVERS ≤ containers'.length then
      ⟨[.reconcile], w1, .error .capacityExceeded⟩
    else
      match w.catalog.min_supported_tag with
      | none => ⟨[.reconcile], w1, .error .minNoneTypeError⟩
      | some m =>
        if version < m then ⟨[.reconcile], w1, .error .versionTooOld⟩
        else
          if version ∈ w.catalog.latest_tags then
            let r := runCreate env w1
            ⟨Event.reconcile :: r.events, r.world, r.result⟩
          else
            match get_latest_image_tags env.registry w.catalog with
            | .error _ => ⟨[.reconcile, .refresh], w1, .error .refreshRaised⟩
            | .ok cat' =>
              let w2 : World := ⟨containers', cat', w.rt⟩
              if version ∈ cat'.latest_tags then
                let r := runCreate env w2
                ⟨Event.reconcile :: Event.refresh :: r.events, r.world, r.result⟩
              else
                ⟨[.reconcile, .refresh], w2, .error .unsupportedVersion⟩

/-! ## Lifecycle: the startup half of `lifespan` -/

inductive StartupErr where
  | refreshRaised
  | pullRaised
deriving DecidableEq, Repr

structure StartupResult where
  events : List Event
  world : World
  result : Except StartupErr Unit
deriving Repr

/-- Models the startup section of `lifespan`: one unconditional catalog
refresh, then `check_images_pulled` over every currently supported tag.
Neither call is guarded, so an exception from either aborts startup. -/
def lifespan_startup (env : Env) (w : World) : StartupResult :=
  match get_latest_image_tags env.registry w.catalog with
  | .error _ => ⟨[.refresh], w, .error .refreshRaised⟩
  | .ok cat' =>
    let p := check_images_pulled env.avail w.rt cat'.latest_tags
    if p.raised then
      ⟨Event.refresh :: p.events, ⟨w.containers, cat', p.rt⟩, .error .pullRaised⟩
    else
      ⟨Event.refresh :: p.events, ⟨w.containers, cat', p.rt⟩, .ok ()⟩

/-! ## Derived trace vocabulary and the staged pipeline of claim C1 -/

/-- Whether an event is an image-pull effect (a pull invocation or the
runtime's effectful fetch), as opposed to an allocation, a creation
attempt, a registration, a reconcile or a refresh. -/
def isPullEvent : Event → Bool
  | .pullCall _ => true
  | .fetch _ => true
  | _ => false

/-- The allocator and runtime calls made by `n` consecutive failing
creation attempts starting at attempt index `a`: each attempt allocates a
fresh port and then calls `containers.run`. -/
def attemptEvents (env : Env) : Nat → Nat → List Event
  | _, 0 => []
  | a, n + 1 =>
    Event.alloc (env.portAt a) :: Event.runAttempt a :: attemptEvents env (a + 1) n

/-- Stage Validating of the amended claim C1: the version string must parse
as a Version; on parse failure the request fails with InvalidVersion. -/
def stageValidate (req : GameRequest) : Except Rejection Version :=
  match parseVersion req.version with
  | none => .error .invalidVersion
  | some v => .ok v

/-- Stage CapacityCheck of the amended claim C1: reconcile, then fail with
CapacityExceeded when the reconciled count has reached the limit. -/
def stageCapacity (env : Env) (containers : List String) :
    List String × Option Rejection :=
  let cs := remove_stopped_containers env.statusOf containers
  (cs, if MAX_RUNNING_SERVERS ≤ cs.length then some .capacityExceeded else none)

/-- Stage VersionGate of the amended claim C1: below a present minimum the
request fails with VersionTooOld; with the minimum absent the comparison
itself raises an unhandled TypeError. -/
def stageVersionGate (cat : CatalogState) (v : Version) : Option Rejection :=
  match cat.min_supported_tag with
  | none => some .minNoneTypeError
  | some m => if v < m then some .versionTooOld else none

/-- Stage Membership of the amended claim C1: if the version is not in the
supported set, attempt exactly one catalog refresh (whose own exception
propagates); if still not supported, fail with UnsupportedVersion.
Returns the catalog to carry forward, whether a refresh was attempted, and
the verdict. -/
def stageMembership (env : Env) (cat : CatalogState) (v : Version) :
    CatalogState × Bool × Option Rejection :=
  if v ∈ cat.latest_tags then (cat, false, none)
  else
    match get_latest_image_tags env.registry cat with
    | .error _ => (cat, true, some .refreshRaised)
    | .ok cat' =>
      if v ∈ cat'.latest_tags then (cat', true, none)
      else (cat', true, some .unsupportedVersion)

/-- The amended claim C1 as a staged pipeline: Validating, then
CapacityCheck, then VersionGate, then Membership (with its at most one
refresh), then creation; a rejection at a stage stops the pipeline with
only the effects of the stages already run. -/
def pipelineSpec (env : Env) (w : World) (req : GameRequest) : ReqResult :=
  match stageValidate req with
  | .error rej => ⟨[], w, .error rej⟩
  | .ok version =>
    match stageCapacity env w.containers with
    | (cs, some rej) => ⟨[.reconcile], ⟨cs, w.catalog, w.rt⟩, .error rej⟩
    | (cs, none) =>
      match stageVersionGate w.catalog version with
      | some rej => ⟨[.reconcile], ⟨cs, w.catalog, w.rt⟩, .error rej⟩
      | none =>
        match stageMembership env w.catalog version with
        | (cat', refreshed, some rej) =>
          ⟨[.reconcile] ++ (if refreshed then [Event.refresh] else []),
           ⟨cs, cat', w.rt⟩, .error rej⟩
        | (cat', refreshed, none) =>
          let r := runCreate env ⟨cs, cat', w.rt⟩
          ⟨[.reconcile] ++ (if refreshed then [Event.refresh] else []) ++ r.events,
           r.world, r.result⟩

/-! ## Concrete inputs used by counterexamples and witnesses -/

def v100 : Version := ⟨1, 0, 0, []⟩
def v110 : Version := ⟨1, 1, 0, []⟩

/-- Environment whose runtime always fails creation with a transient
`APIError`, serves no image fetches, and whose registry call raises. -/
def envA : Env :=
  ⟨fun _ => .raised, .raised, fun _ => .raise .apiError, fun i => 30000 + i,
   fun _ => false⟩

/-- Environment whose creation succeeds on the second attempt. -/
def envB : Env :=
  ⟨fun _ => .raised, .raised,
   fun i => if i = 1 then .success ("c7") else .raise .apiError,
   fun i => 40000 + i, fun _ => false⟩

/-- Environment whose creation raises `ImageNotFound` on the first attempt
and succeeds on the second. -/
def envC : Env :=
  ⟨fun _ => .raised, .raised,
   fun i => if i = 0 then .raise .imageNotFound else .success ("c1"),
   fun i => 30000 + i, fun _ => false⟩

/-- Environment for startup: the registry serves tags 1.0.0 and 1.1.0 but
only 1.1.0 can actually be fetched. -/
def envD : Env :=
  ⟨fun _ => .raised, .resp 200 [("1.0.0"), ("1.1.0")],
   fun _ => .raise .apiError, fun i => 30000 + i, fun v => v = v110⟩

/-- Environment where every container is observed running and every fetch
succeeds. -/
def envE : Env :=
  ⟨fun _ => .status ("running"), .resp 200 [("1.0.0")],
   fun _ => .success ("c2"), fun i => 30000 + i, fun _ => true⟩

/-- A world whose catalog has never been successfully populated. -/
def wEmpty : World := ⟨[], ⟨[], none⟩, ⟨[]⟩⟩

/-- A world with one tracked container and a never-populated catalog. -/
def wOne : World := ⟨[("c0")], ⟨[], none⟩, ⟨[]⟩⟩

def reqA : GameRequest := ⟨("alice"), false, ("1.2.3")⟩
def reqB : GameRequest := ⟨("bob"), true, ("2.0.0")⟩

/-! ## Lemmas about the tag scan -/

theorem lowerMin_isSome (cur : Option Version) (v : Version) :
    ∃ y, lowerMin cur v = some y := by
  cases cur with
  | none => exact ⟨v, rfl⟩
  | some m =>
    by_cases h : m > v
    · exact ⟨v, by simp [lowerMin, h]⟩
    · exact ⟨m, by simp [lowerMin, h]⟩

theorem lowerMin_spec (cur : Option Version) (v : Version) (y : Version)
    (h : lowerMin cur v = some y) :
    y ≤ v ∧ (∀ x, cur = some x → y ≤ x) ∧ (cur = some y ∨ y = v) := by
  cases cur with
  | none =>
    simp only [lowerMin, Option.some.injEq] at h
    subst h
    exact ⟨le_refl _, by simp, Or.inr rfl⟩
  | some m =>
    simp only [lowerMin] at h
    by_cases hm : m > v
    · rw [if_pos hm] at h
      injection h with h; subst h
      exact ⟨le_refl _, fun x hx => by injection hx with hx; subst hx; exact le_of_lt hm,
        Or.inr rfl⟩
    · rw [if_neg hm] at h
      injection h with h; subst h
      exact ⟨le_of_not_lt hm, fun x hx => by
        injection hx with hx
        subst hx
        exact le_refl _, Or.inl rfl⟩

/-- Invariant of the tag-scanning fold in `get_latest_image_tags`: the tags
accumulate exactly the parseable names in order, and the running minimum is
a least element among the seed and the parsed tags. -/
theorem scan_foldl_invariant (names : List String) :
    ∀ acc : List Version × Option Version,
      (names.foldl scanStep acc).1 = acc.1 ++ names.filterMap parseVersion
      ∧ ((names.foldl scanStep acc).2 = none ↔
          (acc.2 = none ∧ names.filterMap parseVersion = []))
      ∧ ∀ m, (names.foldl scanStep acc).2 = some m →
          (acc.2 = some m ∨ m ∈ names.filterMap parseVersion)
          ∧ (∀ x, acc.2 = some x → m ≤ x)
          ∧ (∀ x ∈ names.filterMap parseVersion, m ≤ x) := by
  induction names with
  | nil =>
    intro acc
    refine ⟨by simp, by simp, fun m hm => ?_⟩
    simp only [List.foldl_nil] at hm
    exact ⟨Or.inl hm, fun x hx => by rw [hm] at hx; injection hx with hx; rw [hx],
      by simp⟩
  | cons name names ih =>
    intro acc
    rw [List.foldl_cons, List.filterMap_cons]
    cases hp : parseVersion name with
    | none =>
      have hstep : scanStep acc name = acc := by simp [scanStep, hp]
      rw [hstep]
      exact ih acc
    | some v =>
      have hstep : scanStep acc name = (acc.1 ++ [v], lowerMin acc.2 v) := by
        simp [scanStep, hp]
      rw [hstep]
      obtain ⟨ih1, ih2, ih3⟩ := ih (acc.1 ++ [v], lowerMin acc.2 v)
      obtain ⟨y, hy⟩ := lowerMin_isSome acc.2 v
      obtain ⟨hyv, hycur, hyeq⟩ := lowerMin_spec acc.2 v y hy
      refine ⟨by rw [ih1]; simp, ?_, ?_⟩
      · rw [ih2]
        simp only [hy]
        constructor
        · rintro ⟨h, -⟩; cases h
        · rintro ⟨-, h⟩; cases h
      · intro m hm
        obtain ⟨hmem, hlem, hall⟩ := ih3 m hm
        simp only [hy] at hmem hlem
        have hmy : m ≤ y := hlem y rfl
        constructor
        · rcases hmem with hmem | hmem
          · injection hmem with hmem
            subst hmem
            rcases hyeq with hc | hc
            · exact Or.inl hc
            · subst hc; exact Or.inr (List.mem_cons_self _ _)
          · exact Or.inr (List.mem_cons_of_mem _ hmem)
        constructor
        · intro x hx
          exact le_trans hmy (hycur x hx)
        · intro x hx
          rcases List.mem_cons.mp hx with hx | hx
          · subst hx; exact le_trans hmy hyv
          · exact hall x hx

/-! ## Claim C4 — catalog refresh failure and atomicity -/

/-- Claim C4, counterexample to the claim as stated: a transport failure of
the registry call (the unguarded `requests.get` raising, e.g. a connection
error) does propagate an exception out of `get_latest_image_tags`,
contrary to "propagates no exception to its caller". -/
theorem claimC4_counterexample :
    get_latest_image_tags .raised ⟨[v100], some v100⟩ = .error () := rfl

/-- Claim C4 (amended): a refresh whose registry call completes with a
non-200 status leaves the catalog exactly as it was and raises nothing; a
refresh whose registry call raises propagates the exception (so no catalog
assignment happens); a refresh with a 200 response replaces `supported`
and `minimum` together, both computed from the response alone. -/
theorem claimC4_refresh_atomic (reg : RegistryResult) (cat : CatalogState) :
    (reg = .raised → get_latest_image_tags reg cat = .error ())
    ∧ (∀ status names, reg = .resp status names → status ≠ 200 →
        get_latest_image_tags reg cat = .ok cat)
    ∧ (∀ names, reg = .resp 200 names →
        get_latest_image_tags reg cat =
          .ok ⟨(scanTags names).1, (scanTags names).2⟩) := by
  refine ⟨fun h => by subst h; rfl, ?_, ?_⟩
  · intro status names h hs
    subst h
    simp [get_latest_image_tags, hs]
  · intro names h
    subst h
    simp [get_latest_image_tags, scanTags]

/-- Witness for claim C4: a concrete 200 response replaces both catalog
fields together, a concrete non-200 response leaves a concrete catalog
untouched. -/
theorem claimC4_witness :
    get_latest_image_tags (.resp 200 [("1.1.0"), ("1.0.0")]) ⟨[], none⟩
      = .ok ⟨[v110, v100], some v100⟩
    ∧ get_latest_image_tags (.resp 500 [("9.9.9")]) ⟨[v100], some v100⟩
      = .ok ⟨[v100], some v100⟩ :=
  ⟨(claimC4_refresh_atomic (.resp 200 [("1.1.0"), ("1.0.0")]) ⟨[], none⟩).2.2
      [("1.1.0"), ("1.0.0")] rfl,
   (claimC4_refresh_atomic (.resp 500 [("9.9.9")]) ⟨[v100], some v100⟩).2.1
      500 [("9.9.9")] rfl (by decide)⟩

/-! ## Claim C8 — the refresh invariant on supported set and minimum -/

/-- Claim C8, counterexample to the claim as stated: a successful refresh
whose page contains no parseable tag name (here the common tag "latest")
leaves the minimum absent even though the catalog has just been
successfully populated — and it wipes a previously present minimum. -/
theorem claimC8_counterexample :
    get_latest_image_tags (.resp 200 [("latest")]) ⟨[v100], some v100⟩
      = .ok ⟨[], none⟩ := rfl

/-- Claim C8 (amended): after a successful refresh the supported set is
exactly the list of returned names that parse as Versions (in order, with
no merging of the previous catalog), and the minimum is a least element of
that set under semantic-versioning order; the minimum is absent exactly
when that set is empty (which also happens on a successful refresh whose
names all fail to parse). -/
theorem claimC8_refresh_invariant (names : List String) (cat : CatalogState) :
    get_latest_image_tags (.resp 200 names) cat
      = .ok ⟨(scanTags names).1, (scanTags names).2⟩
    ∧ (scanTags names).1 = names.filterMap parseVersion
    ∧ ((scanTags names).2 = none ↔ names.filterMap parseVersion = [])
    ∧ ∀ m, (scanTags names).2 = some m →
        m ∈ names.filterMap parseVersion
        ∧ ∀ x ∈ names.filterMap parseVersion, m ≤ x := by
  obtain ⟨h1, h2, h3⟩ := scan_foldl_invariant names ([], none)
  refine ⟨by simp [get_latest_image_tags, scanTags], ?_, ?_, ?_⟩
  · simpa using h1
  · rw [scanTags, h2]; simp
  · intro m hm
    obtain ⟨hmem, -, hall⟩ := h3 m hm
    refine ⟨?_, hall⟩
    rcases hmem with h | h
    · cases h
    · exact h

/-- Witness for claim C8: on a concrete page the supported set is the
parseable names and the minimum is below the other tag. -/
theorem claimC8_witness :
    get_latest_image_tags (.resp 200 [("1.1.0"), ("latest"), ("1.0.0")]) ⟨[], none⟩
      = .ok ⟨[v110, v100], some v100⟩
    ∧ v100 ≤ v110 :=
  ⟨(claimC8_refresh_invariant [("1.1.0"), ("latest"), ("1.0.0")] ⟨[], none⟩).1,
   ((claimC8_refresh_invariant [("1.1.0"), ("latest"), ("1.0.0")] ⟨[], none⟩).2.2.2
      v100 rfl).2 v110 (by decide)⟩

/-! ## Claim C10 — reconciliation prunes exactly the not-running sessions -/

/-- Claim C10: `remove_stopped_containers` never lets an exception escape
(it is a total function of the status oracle: the bare `except:` catches
everything), keeps exactly the sessions observed running, removes every
session whose status query raises or reports anything else, and touches no
other entries (the result is a sublist of the input). -/
theorem claimC10_reconcile_prunes (statusOf : String → StatusOutcome)
    (containers : List String) :
    remove_stopped_containers statusOf containers
      = containers.filter (fun cid => statusOf cid == .status ("running"))
    ∧ List.Sublist (remove_stopped_containers statusOf containers) containers := by
  constructor
  · induction containers with
    | nil => rfl
    | cons cid rest ih =>
      simp only [remove_stopped_containers, List.filter_cons]
      cases h : statusOf cid with
      | status s =>
        by_cases hs : s = ("running")
        · subst hs
          simp [ih]
        · have : (StatusOutcome.status s == StatusOutcome.status ("running")) = false := by
            simp [hs]
          simp [hs, this, ih]
      | raised =>
        have : (StatusOutcome.raised == StatusOutcome.status ("running")) = false := by
          simp
        simp [this, ih]
  · induction containers with
    | nil => simp [remove_stopped_containers]
    | cons cid rest ih =>
      simp only [remove_stopped_containers]
      cases h : statusOf cid with
      | status s =>
        by_cases hs : s = ("running")
        · subst hs
          simp only [if_pos rfl]
          exact List.Sublist.cons₂ cid ih
        · simp only [if_neg hs]
          exact List.Sublist.cons cid ih
      | raised => exact List.Sublist.cons cid ih

/-! ## Lemmas about provisioning -/

theorem pullOne_events_pullish (avail : Version → Bool) (rt : Runtime)
    (v : Version) :
    ∀ e ∈ (pullOne avail rt v).events, isPullEvent e = true := by
  intro e he
  simp only [pullOne] at he
  split at he
  · simp only [List.mem_singleton] at he; subst he; rfl
  · split at he
    · rcases List.mem_cons.mp he with he | he
      · subst he; rfl
      · simp only [List.mem_singleton] at he; subst he; rfl
    · simp only [List.mem_singleton] at he; subst he; rfl

theorem cip_events_pullish (avail : Version → Bool) (rt : Runtime)
    (tags : List Version) :
    ∀ e ∈ (check_images_pulled avail rt tags).events, isPullEvent e = true := by
  induction tags generalizing rt with
  | nil => intro e he; simp [check_images_pulled] at he
  | cons v vs ih =>
    intro e he
    simp only [check_images_pulled] at he
    by_cases hr : (pullOne avail rt v).raised = true
    · rw [if_pos hr] at he
      exact pullOne_events_pullish avail rt v e he
    · rw [if_neg hr] at he
      simp only [List.mem_append] at he
      rcases he with he | he
      · exact pullOne_events_pullish avail rt v e he
      · exact ih _ e he

/-- Provisioning is a chain of no-op pull calls when every tag is already
present in the runtime's image store. -/
theorem cip_all_present (avail : Version → Bool) (rt : Runtime)
    (tags : List Version) (h : ∀ v ∈ tags, v ∈ rt.present) :
    check_images_pulled avail rt tags = ⟨tags.map Event.pullCall, rt, false⟩ := by
  induction tags with
  | nil => rfl
  | cons v vs ih =>
    have hv : v ∈ rt.present := h v (List.mem_cons_self _ _)
    simp only [check_images_pulled, pullOne, if_pos hv]
    rw [ih (fun x hx => h x (List.mem_cons_of_mem _ hx))]
    rfl

/-- The runtime's image store only ever grows during provisioning. -/
theorem cip_present_mono (avail : Version → Bool) (rt : Runtime)
    (tags : List Version) :
    ∀ v ∈ rt.present, v ∈ (check_images_pulled avail rt tags).rt.present := by
  induction tags generalizing rt with
  | nil => intro v hv; exact hv
  | cons t ts ih =>
    intro v hv
    simp only [check_images_pulled]
    by_cases h1 : t ∈ rt.present
    · simp only [pullOne, if_pos h1]
      exact ih rt v hv
    · by_cases h2 : avail t = true
      · simp only [pullOne, if_neg h1, if_pos h2]
        exact ih ⟨t :: rt.present⟩ v (List.mem_cons_of_mem _ hv)
      · simp only [pullOne, if_neg h1, if_neg h2]
        exact hv

/-- When every tag is present or fetchable, provisioning completes without
raising and afterwards every tag is present. -/
theorem cip_ok (avail : Version → Bool) (rt : Runtime) (tags : List Version)
    (h : ∀ v ∈ tags, v ∈ rt.present ∨ avail v = true) :
    (check_images_pulled avail rt tags).raised = false
    ∧ ∀ v ∈ tags, v ∈ (check_images_pulled avail rt tags).rt.present := by
  induction tags generalizing rt with
  | nil => exact ⟨rfl, by simp⟩
  | cons t ts ih =>
    have hnr : (pullOne avail rt t).raised = false := by
      rcases h t (List.mem_cons_self _ _) with h1 | h1
      · simp [pullOne, if_pos h1]
      · by_cases h2 : t ∈ rt.present
        · simp [pullOne, if_pos h2]
        · simp [pullOne, if_neg h2, h1]
    have hmem : t ∈ (pullOne avail rt t).rt.present := by
      by_cases h2 : t ∈ rt.present
      · simp only [pullOne, if_pos h2]; exact h2
      · rcases h t (List.mem_cons_self _ _) with h1 | h1
        · exact absurd h1 h2
        · simp only [pullOne, if_neg h2, if_pos h1]
          exact List.mem_cons_self _ _
    have hsub : ∀ v ∈ rt.present, v ∈ (pullOne avail rt t).rt.present := by
      intro v hv
      by_cases h2 : t ∈ rt.present
      · simp only [pullOne, if_pos h2]; exact hv
      · by_cases h1 : avail t = true
        · simp only [pullOne, if_neg h2, if_pos h1]
          exact List.mem_cons_of_mem _ hv
        · simp only [pullOne, if_neg h2, if_neg h1]
          exact hv
    have hts : ∀ v ∈ ts, v ∈ (pullOne avail rt t).rt.present ∨ avail v = true := by
      intro v hv
      rcases h v (List.mem_cons_of_mem _ hv) with h1 | h1
      · exact Or.inl (hsub v h1)
      · exact Or.inr h1
    obtain ⟨ih1, ih2⟩ := ih (pullOne avail rt t).rt hts
    have hnr' : ¬(pullOne avail rt t).raised = true := by simp [hnr]
    simp only [check_images_pulled, if_neg hnr']
    refine ⟨ih1, ?_⟩
    intro v hv
    rcases List.mem_cons.mp hv with hv | hv
    · subst hv
      exact cip_present_mono avail _ ts v hmem
    · exact ih2 v hv

/-- When some tag can neither be found locally nor fetched, provisioning
raises (the exception escapes the loop). -/
theorem cip_fail (avail : Version → Bool) (rt : Runtime) (tags : List Version)
    (h : ∃ v ∈ tags, avail v = false ∧ v ∉ rt.present) :
    (check_images_pulled avail rt tags).raised = true := by
  induction tags generalizing rt with
  | nil => simp at h
  | cons t ts ih =>
    obtain ⟨v, hv, hva, hvp⟩ := h
    by_cases hr : (pullOne avail rt t).raised = true
    · simp only [check_images_pulled, if_pos hr]
      exact hr
    · simp only [check_images_pulled, if_neg hr]
      have hvt : v ≠ t ∨ v = t := (ne_or_eq v t)
      rcases List.mem_cons.mp hv with hveq | hvts
      · exfalso
        subst hveq
        by_cases h2 : v ∈ rt.present
        · exact hvp h2
        · have : (pullOne avail rt v).raised = true := by
            simp [pullOne, if_neg h2, hva]
          exact hr this
      · apply ih
        refine ⟨v, hvts, hva, ?_⟩
        intro hmem
        by_cases h2 : t ∈ rt.present
        · simp only [pullOne, if_pos h2] at hmem
          exact hvp hmem
        · by_cases h1 : avail t = true
          · simp only [pullOne, if_neg h2, if_pos h1] at hmem
            rcases List.mem_cons.mp hmem with hmem | hmem
            · subst hmem; rw [h1] at hva; cases hva
            · exact hvp hmem
          · exfalso
            apply hr
            simp [pullOne, if_neg h2, h1]

/-! ## Claim C7 — provisioning idempotence -/

/-- Claim C7: provisioning the same image:version twice in succession
performs at most one effectful pull observable by the runtime capability
(at most one fetch in the first call and none in the second), and the
second call is a no-op: it returns the runtime store unchanged with only
the cheap pull invocation.  The idempotence lives in the runtime
capability (pulling a present image is a no-op), which the code calls
unconditionally each time. -/
theorem claimC7_ensure_pulled_idempotent (avail : Version → Bool)
    (rt : Runtime) (v : Version)
    (h : (check_images_pulled avail rt [v]).raised = false) :
    check_images_pulled avail (check_images_pulled avail rt [v]).rt [v]
      = ⟨[Event.pullCall v], (check_images_pulled avail rt [v]).rt, false⟩
    ∧ (check_images_pulled avail rt [v]).events.count (Event.fetch v) ≤ 1 := by
  by_cases h1 : v ∈ rt.present
  · have e1 : check_images_pulled avail rt [v] = ⟨[Event.pullCall v], rt, false⟩ := by
      simp [check_images_pulled, pullOne, if_pos h1]
    rw [e1]
    constructor
    · simp [check_images_pulled, pullOne, if_pos h1]
    · simp
  · by_cases h2 : avail v = true
    · have e1 : check_images_pulled avail rt [v]
          = ⟨[Event.pullCall v, Event.fetch v], ⟨v :: rt.present⟩, false⟩ := by
        simp [check_images_pulled, pullOne, if_neg h1, if_pos h2]
      rw [e1]
      constructor
      · simp [check_images_pulled, pullOne, List.mem_cons_self]
      · simp [List.count_cons]
    · exfalso
      have : (check_images_pulled avail rt [v]).raised = true := by
        simp [check_images_pulled, pullOne, if_neg h1, h2]
      rw [this] at h
      cases h

/-- Witness for claim C7: pulling 1.0.0 into an empty store and calling
again — the second call is observably a single no-op pull invocation. -/
theorem claimC7_witness :
    check_images_pulled (fun _ => true)
        (check_images_pulled (fun _ => true) ⟨[]⟩ [v100]).rt [v100]
      = ⟨[Event.pullCall v100], ⟨[v100]⟩, false⟩ :=
  (claimC7_ensure_pulled_idempotent (fun _ => true) ⟨[]⟩ v100 rfl).1

/-! ## Claim C5 — provisioning pull failure fails the request immediately -/

/-- Claim C5, counterexample to the claim as stated: with one supported
tag whose image can be neither found locally nor fetched, the provisioning
pull at the top of `create_server` raises and the exception propagates at
once — zero ports allocated, zero creation attempts, nothing registered —
rather than being "retried as part of the container-creation loop" and
"not surfaced unless the creation retries are exhausted". -/
theorem claimC5_counterexample :
    create_server envA [v100] [] ⟨[]⟩
      = ⟨[Event.pullCall v100], [], ⟨[]⟩, .error .pullRaised⟩ := rfl

/-- Claim C5 (amended): a pull failure during provisioning fails the
request by itself: the exception from `check_images_pulled` propagates out
of `create_server` before the retry loop starts, so no port is allocated,
no creation attempt is made and no session is registered. -/
theorem claimC5_pull_failure_aborts (env : Env) (tags : List Version)
    (containers : List String) (rt : Runtime)
    (h : ∃ v ∈ tags, env.avail v = false ∧ v ∉ rt.present) :
    (create_server env tags containers rt).result = .error .pullRaised
    ∧ (create_server env tags containers rt).containers = containers
    ∧ ∀ e ∈ (create_server env tags containers rt).events, isPullEvent e = true := by
  have hr := cip_fail env.avail rt tags h
  refine ⟨?_, ?_, ?_⟩
  · simp [create_server, if_pos hr]
  · simp [create_server, if_pos hr]
  · simp only [create_server, if_pos hr]
    exact cip_events_pullish env.avail rt tags

/-- Witness for claim C5: the concrete aborted provisioning of 1.0.0. -/
theorem claimC5_witness :
    (create_server envA [v100] [] ⟨[]⟩).result = .error .pullRaised
    ∧ (create_server envA [v100] [] ⟨[]⟩).containers = [] :=
  ⟨(claimC5_pull_failure_aborts envA [v100] [] ⟨[]⟩
      ⟨v100, List.mem_cons_self _ _, rfl, by simp⟩).1,
   (claimC5_pull_failure_aborts envA [v100] [] ⟨[]⟩
      ⟨v100, List.mem_cons_self _ _, rfl, by simp⟩).2.1⟩

/-! ## Claim C6 — the image-missing re-pull branch is dead code -/

/-- Claim C6 is contradicted by the code: in docker-py `ImageNotFound`
subclasses `APIError`, and the `except APIError` clause comes first in
`create_server`, so an image-missing failure is handled as a transient
error and the `except ImageNotFound` re-pull branch can never run.  On the
failing input — attempt 0 raises `ImageNotFound` with image 1.0.0 present,
attempt 1 succeeds — the complete trace shows no pull call between
attempt 0 and attempt 1: the controller continues without re-running
`ensure_pulled`, contrary to the claim and to the code's own comment
"Image was removed, will try pulling again". -/
theorem claimC6_no_repull_on_image_missing :
    create_server envC [v100] [] ⟨[v100]⟩
      = ⟨[Event.pullCall v100, Event.alloc 30000, Event.runAttempt 0,
          Event.alloc 30001, Event.runAttempt 1, Event.register ("c1")],
         [("c1")], ⟨[v100]⟩, .ok 30001⟩ := rfl

/-! ## Claim C2 — the creation retry bound -/

/-- When every attempt in the window raises a transient `APIError`, the
loop performs each attempt (fresh port allocation plus run call) and then
the `for`/`else` raises, reporting `MAX_CONTAINER_RETRIES`. -/
theorem create_loop_all_fail (env : Env) (tags : List Version)
    (containers : List String) (f : Nat) :
    ∀ a, ∀ rt : Runtime,
      (∀ i, a ≤ i → i < a + f → env.createAt i = .raise .apiError) →
      create_loop env tags containers rt a f
        = ⟨attemptEvents env a f, containers, rt,
           .error (.launchFailed MAX_CONTAINER_RETRIES)⟩ := by
  induction f with
  | zero => intro a rt h; rfl
  | succ f ih =>
    intro a rt h
    have ha : env.createAt a = .raise .apiError := h a (le_refl a) (by omega)
    have ih' := ih (a + 1) rt (fun i h1 h2 => h i (by omega) (by omega))
    simp only [create_loop, ha, ih']
    simp [DockerExn.matchesAPIError, attemptEvents]

/-- When the first `j` attempts raise transient `APIError`s and attempt
`a + j` succeeds, the loop returns the port allocated in that attempt and
appends the new container id to the registry. -/
theorem create_loop_succeeds (env : Env) (tags : List Version)
    (containers : List String) (rt : Runtime) (cid : String) :
    ∀ j a f, j < f →
      (∀ i, i < j → env.createAt (a + i) = .raise .apiError) →
      env.createAt (a + j) = .success cid →
      create_loop env tags containers rt a f
        = ⟨attemptEvents env a j
             ++ [Event.alloc (env.portAt (a + j)), Event.runAttempt (a + j),
                 Event.register cid],
           containers ++ [cid], rt, .ok (env.portAt (a + j))⟩ := by
  intro j
  induction j with
  | zero =>
    intro a f hf hfail hsucc
    match f, hf with
    | f + 1, _ =>
      simp only [Nat.add_zero] at hsucc
      simp only [create_loop, hsucc]
      rfl
  | succ j ih =>
    intro a f hf hfail hsucc
    match f, hf with
    | f + 1, hf =>
      have ha : env.createAt a = .raise .apiError := by
        have := hfail 0 (by omega)
        simpa using this
      have ih' := ih (a + 1) f (by omega)
        (fun i hi => by
          have := hfail (i + 1) (by omega)
          rw [show a + (i + 1) = a + 1 + i by omega] at this
          exact this)
        (by rw [show a + 1 + j = a + (j + 1) by omega]; exact hsucc)
      simp only [create_loop, ha, DockerExn.matchesAPIError, if_pos rfl, ih']
      simp [attemptEvents, show a + 1 + j = a + (j + 1) by omega]

/-- Claim C2: once a request reaches container creation (provisioning
found every supported image already present), a runtime whose creation
call raises a transient error on every attempt makes the controller
perform exactly `MAX_CONTAINER_RETRIES` attempts — allocating a fresh port
from the allocator for each attempt — and then fail with the exhausted
`LaunchFailed` error reporting that attempt count; a runtime that succeeds
on attempt `k + 1 ≤ MAX_CONTAINER_RETRIES` gets the new session registered
and the port allocated in that successful attempt returned. -/
theorem claimC2_retry_bound (env : Env) (tags : List Version)
    (containers : List String) (rt : Runtime)
    (hp : ∀ v ∈ tags, v ∈ rt.present) :
    ((∀ i, i < MAX_CONTAINER_RETRIES → env.createAt i = .raise .apiError) →
      create_server env tags containers rt
        = ⟨tags.map Event.pullCall ++ attemptEvents env 0 MAX_CONTAINER_RETRIES,
           containers, rt, .error (.launchFailed MAX_CONTAINER_RETRIES)⟩)
    ∧ (∀ k cid, k < MAX_CONTAINER_RETRIES →
        (∀ i, i < k → env.createAt i = .raise .apiError) →
        env.createAt k = .success cid →
        create_server env tags containers rt
          = ⟨tags.map Event.pullCall ++ attemptEvents env 0 k
               ++ [Event.alloc (env.portAt k), Event.runAttempt k,
                   Event.register cid],
             containers ++ [cid], rt, .ok (env.portAt k)⟩) := by
  have hpull := cip_all_present env.avail rt tags hp
  constructor
  · intro hfail
    have hloop := create_loop_all_fail env tags containers MAX_CONTAINER_RETRIES 0 rt
      (fun i h1 h2 => hfail i (by omega))
    simp [create_server, hpull, hloop]
  · intro k cid hk hfail hsucc
    have hloop := create_loop_succeeds env tags containers rt cid k 0
      MAX_CONTAINER_RETRIES hk
      (fun i hi => by simpa using hfail i hi)
      (by simpa using hsucc)
    simp [create_server, hpull, hloop]

/-- Witness for claim C2: with image 1.0.0 present, a runtime failing
attempt 0 and succeeding on attempt 1 yields the registered session and
the second allocated port. -/
theorem claimC2_witness :
    create_server envB [v100] [] ⟨[v100]⟩
      = ⟨[Event.pullCall v100, Event.alloc 40000, Event.runAttempt 0,
          Event.alloc 40001, Event.runAttempt 1, Event.register ("c7")],
         [("c7")], ⟨[v100]⟩, .ok 40001⟩ :=
  (claimC2_retry_bound envB [v100] [] ⟨[v100]⟩ (by simp)).2 1 ("c7")
    (by decide)
    (fun i hi => by
      have : i = 0 := by omega
      subst this
      rfl)
    rfl

/-! ## Claim C1 — the staged processing order of a launch request -/

/-- Claim C1, counterexample to the claim as stated: with the catalog
never populated, a request whose version parses and which passes the
capacity check is neither rejected with VersionTooOld nor subjected to the
supported-set membership check: the below-minimum comparison raises an
unhandled TypeError (the second conjunct shows the membership stage's
refresh was never attempted, although the version is not in the — empty —
supported set). -/
theorem claimC1_counterexample :
    request_game envA wEmpty reqA
      = ⟨[Event.reconcile], wEmpty, .error .minNoneTypeError⟩
    ∧ (request_game envA wEmpty reqA).events.count Event.refresh = 0 :=
  ⟨rfl, rfl⟩

/-- Claim C1 (amended): every launch request is processed as the staged
pipeline Validating (InvalidVersion, with no reconcile, refresh or
creation effect), then reconcile-and-capacity-check (CapacityExceeded),
then the below-minimum gate (VersionTooOld below a present minimum; with
the minimum absent the comparison raises an unhandled TypeError), then the
membership check with at most one catalog refresh (whose own exception
propagates; UnsupportedVersion if still unsupported), then creation; a
request rejected at a stage performs none of the effects of later
stages. -/
theorem claimC1_staged_pipeline (env : Env) (w : World) (req : GameRequest) :
    request_game env w req = pipelineSpec env w req := by
  simp only [request_game, pipelineSpec, stageValidate, stageCapacity,
    stageVersionGate, stageMembership]
  cases hv : parseVersion req.version with
  | none => rfl
  | some v =>
    by_cases hcap : MAX_RUNNING_SERVERS ≤
        (remove_stopped_containers env.statusOf w.containers).length
    · simp [hcap]
    · simp only [if_neg hcap]
      cases hm : w.catalog.min_supported_tag with
      | none => simp
      | some m =>
        by_cases hlt : v < m
        · simp [hlt]
        · simp only [if_neg hlt]
          by_cases hmem : v ∈ w.catalog.latest_tags
          · simp [hmem]
          · simp only [if_neg hmem]
            cases hr : get_latest_image_tags env.registry w.catalog with
            | error e => simp
            | ok cat' =>
              by_cases hmem2 : v ∈ cat'.latest_tags
              · simp [hmem2]
              · simp [hmem2]

/-! ## Claim C3 — absent minimum: not admitted, but by a crash -/

/-- Claim C3, counterexample to the claim as stated: with the catalog
never populated, a parsing request that passes the capacity check makes
the handler crash — the `version < min_supported_tag` comparison with
`None` raises an unhandled TypeError — rather than reject with a
structured error, even in an environment whose runtime would have
succeeded every pull and creation. -/
theorem claimC3_counterexample :
    request_game envE wOne reqB
      = ⟨[Event.reconcile], ⟨[("c0")], ⟨[], none⟩, ⟨[]⟩⟩,
         .error .minNoneTypeError⟩ := rfl

/-- Claim C3 (amended): if the catalog has never been populated (minimum
absent), every request whose version parses and which passes the capacity
check is not admitted — no refresh, no pull, no creation attempt, no
registration happens (the trace is just the reconcile) — but the handler
exits by the unhandled TypeError from comparing the version with the
absent minimum, not by a structured rejection. -/
theorem claimC3_min_absent_not_admitted (env : Env) (w : World)
    (req : GameRequest) (v : Version)
    (hv : parseVersion req.version = some v)
    (hmin : w.catalog.min_supported_tag = none)
    (hcap : (remove_stopped_containers env.statusOf w.containers).length
      < MAX_RUNNING_SERVERS) :
    request_game env w req
      = ⟨[Event.reconcile],
         ⟨remove_stopped_containers env.statusOf w.containers, w.catalog, w.rt⟩,
         .error .minNoneTypeError⟩ := by
  have hle : ¬ MAX_RUNNING_SERVERS ≤
      (remove_stopped_containers env.statusOf w.containers).length :=
    Nat.not_le.mpr hcap
  simp only [request_game, hv, hmin, if_neg hle]

/-- Witness for claim C3: concrete crash on an empty, never-refreshed
world. -/
theorem claimC3_witness :
    request_game envE wEmpty reqB
      = ⟨[Event.reconcile], wEmpty, .error .minNoneTypeError⟩ :=
  claimC3_min_absent_not_admitted envE wEmpty reqB ⟨2, 0, 0, []⟩ rfl rfl
    (by decide)

/-! ## Claim C9 — startup: one refresh, then provisioning every tag -/

/-- Claim C9, counterexample to the claim as stated: at startup with two
supported versions of which 1.0.0 cannot be fetched, the pull failure
aborts startup (the startup hook raises), and 1.1.0 is never provisioned —
pull failures are not best-effort. -/
theorem claimC9_counterexample :
    lifespan_startup envD wEmpty
      = ⟨[Event.refresh, Event.pullCall v100],
         ⟨[], ⟨[v100, v110], some v100⟩, ⟨[]⟩⟩, .error .pullRaised⟩ := rfl

/-- Claim C9 (amended): startup refreshes the catalog exactly once, then
pulls images for every currently supported version in order; when every
supported image is present or fetchable, startup completes and every
supported version ends present; but a pull failure (or an exception from
the refresh itself) propagates and aborts startup instead of being
best-effort. -/
theorem claimC9_startup_refresh_then_pulls (env : Env) (w : World) :
    (lifespan_startup env w).events.count Event.refresh = 1
    ∧ (∀ cat', get_latest_image_tags env.registry w.catalog = .ok cat' →
        (∀ v ∈ cat'.latest_tags, v ∈ w.rt.present ∨ env.avail v = true) →
        (lifespan_startup env w).result = .ok ()
        ∧ ∀ v ∈ cat'.latest_tags, v ∈ (lifespan_startup env w).world.rt.present)
    ∧ (∀ cat', get_latest_image_tags env.registry w.catalog = .ok cat' →
        (∃ v ∈ cat'.latest_tags, env.avail v = false ∧ v ∉ w.rt.present) →
        (lifespan_startup env w).result = .error .pullRaised)
    ∧ (get_latest_image_tags env.registry w.catalog = .error () →
        (lifespan_startup env w).result = .error .refreshRaised) := by
  cases hr : get_latest_image_tags env.registry w.catalog with
  | error e =>
    refine ⟨?_, ?_, ?_, ?_⟩
    · simp [lifespan_startup, hr]
    · intro cat' h; cases h
    · intro cat' h; cases h
    · intro h; simp [lifespan_startup, hr]
  | ok cat' =>
    have hpullish := cip_events_pullish env.avail w.rt cat'.latest_tags
    have hcount :
        (check_images_pulled env.avail w.rt cat'.latest_tags).events.count
          Event.refresh = 0 := by
      rw [List.count_eq_zero]
      intro hmem
      have := hpullish Event.refresh hmem
      simp [isPullEvent] at this
    refine ⟨?_, ?_, ?_, ?_⟩
    · by_cases hp : (check_images_pulled env.avail w.rt cat'.latest_tags).raised = true
      · simp [lifespan_startup, hr, hp, List.count_cons, hcount]
      · simp [lifespan_startup, hr, hp, List.count_cons, hcount]
    · intro cat'' h hall
      injection h with h
      subst h
      obtain ⟨hok, hpres⟩ := cip_ok env.avail w.rt cat'.latest_tags hall
      have hp : ¬ (check_images_pulled env.avail w.rt cat'.latest_tags).raised = true := by
        simp [hok]
      constructor
      · simp [lifespan_startup, hr, if_neg hp]
      · intro v hv
        simp only [lifespan_startup, hr, if_neg hp]
        exact hpres v hv
    · intro cat'' h hex
      injection h with h
      subst h
      have hp := cip_fail env.avail w.rt cat'.latest_tags hex
      simp [lifespan_startup, hr, hp]
    · intro h; cases h

/-- Witness for claim C9: the concrete aborted startup of `envD`. -/
theorem claimC9_witness :
    (lifespan_startup envD wEmpty).result = .error .pullRaised :=
  (claimC9_startup_refresh_then_pulls envD wEmpty).2.2.1
    ⟨[v100, v110], some v100⟩ rfl (by decide)
